import Mathlib

/-!
Shallow embedding of the quiz session controller of this repository.

Two versions of the controller exist in the source tree:
* `src/controller/phase2/quiz/QuizController.py` (the current version), and
* `src/Quiz_Questions/QuizController.py` (an older version).

The current version keeps the source names (`pick_question`, `run_iter`,
`run_loop`, ...); the older one is prefixed `old_`.  Randomness
(`random.randint`) is modelled
by an explicit stream of natural-number draws, each draw reduced modulo the
size of the sampling range; the blocking answer wait is modelled by feeding
each loop iteration the answer string that eventually arrives; fallible
Python operations (missing dict key, out-of-range list index, uninitialised
attribute) are modelled with `Option` / `Except`.
-/

namespace Quiz

/-- The two-valued answer enumeration `QuizAnswer` of the source. -/
inductive QuizAnswer where
  | TRUE
  | FALSE
deriving DecidableEq, Repr

/-- A quiz question of the current (phase2) controller: audio file name,
expected answer, optional explanation file. -/
structure QuizQuestion where
  audio_file : String
  answer : QuizAnswer
  explanation_file : Option String
deriving DecidableEq, Repr

def QuizQuestion.get_answer (q : QuizQuestion) : QuizAnswer := q.answer

def QuizQuestion.get_audio_file (q : QuizQuestion) : String := q.audio_file

def QuizQuestion.get_explanation_file (q : QuizQuestion) : Option String :=
  q.explanation_file

/-- A raw JSON entry of the question configuration file: each field is
`none` when the key is missing from the dictionary. -/
structure QuestionRecord where
  audio : Option String
  answer : Option String
  explanation : Option String
deriving DecidableEq, Repr

/-- A load-time configuration failure: Python raises `KeyError(key)` when a
dict key is missing. -/
inductive LoadError where
  | keyError (key : String)
deriving DecidableEq, Repr

/-- QuestionFactory.__parse_question: builds a `QuizQuestion` from one JSON
entry.  Python evaluates the constructor arguments left to right, so a
missing `audio` key raises before `answer` is looked at; the answer string
is mapped to `TRUE` when it equals `"T"` and to `FALSE` otherwise; an empty
`explanation` string is stored as `None`. -/
def parse_question (question : QuestionRecord) : Except LoadError QuizQuestion :=
  match question.audio with
  | none => .error (.keyError "audio")
  | some audio =>
    match question.answer with
    | none => .error (.keyError "answer")
    | some ans =>
      match question.explanation with
      | none => .error (.keyError "explanation")
      | some expl =>
        .ok { audio_file := audio
              answer := if ans = "T" then .TRUE else .FALSE
              explanation_file := if expl = "" then none else some expl }

/-- QuestionFactory.parse_file: parses every entry of the configuration list
in order; the first failing entry aborts the whole load (the list
comprehension propagates the exception) and no partial bank is returned. -/
def parse_file : List QuestionRecord → Except LoadError (List QuizQuestion)
  | [] => .ok []
  | question :: rest =>
    match parse_question question with
    | .error e => .error e
    | .ok q =>
      match parse_file rest with
      | .error e => .error e
      | .ok qs => .ok (q :: qs)

/-- The LED animations dispatched by the controller. -/
inductive LedAnimation where
  | ANIM_IDLE
  | ANIM_SUCCESS
  | ANIM_ERROR
deriving DecidableEq, Repr

/-- An observable effect of the session: an LED animation, a blocking audio
track, or the completion-handler notification `on_quiz_completed`. -/
inductive Event where
  | led (a : LedAnimation)
  | audio (track : String)
  | completed
deriving DecidableEq, Repr

/-- The mutable per-session attributes set by `QuizController.__init__`
(the collaborators and the immutable question bank are kept outside). -/
structure SessionState where
  alive : Bool
  received_answer : Option String
  asked_questions : Nat
  to_repeat : Bool
  picked_questions : List Nat
deriving DecidableEq, Repr

/-- QuizController.__init__: alive, no received answer, zero questions
asked, no repeat pending, no picked indices. -/
def init_state : SessionState :=
  { alive := true
    received_answer := none
    asked_questions := 0
    to_repeat := false
    picked_questions := [] }

/-- QuizController.stop: sets the alive flag to false; nothing else. -/
def stop (s : SessionState) : SessionState := { s with alive := false }

/-- QuizController.handle_code: stores the scanned code content as the
received answer, overwriting whatever was in the slot. -/
def handle_code (received_answer : Option String) (code_content : String) :
    Option String :=
  some code_content

/-- The read-and-clear of `__received_answer` performed by `run` once the
wait loop exits: returns the slot's content and the emptied slot. -/
def take_received_answer (received_answer : Option String) :
    Option String × Option String :=
  (received_answer, none)

/-- The guard of the inner wait loop `while self.__received_answer is None`:
the loop keeps sleeping exactly while this is true.  Note that the guard
inspects only the received-answer slot, not the alive flag. -/
def answer_wait_continues (s : SessionState) : Bool :=
  s.received_answer = none

/-- The inner wait loop run for `fuel` sleep cycles with no delivery
arriving: returns true when the loop has exited within the given number of
cycles.  The state is unchanged by sleeping, so the result only depends on
whether an answer is already present. -/
def wait_for_answer : Nat → SessionState → Bool
  | 0, s => s.received_answer.isSome
  | fuel + 1, s =>
    if s.received_answer = none then wait_for_answer fuel s else true

/-- QuizController.__parse_answer of the current version: returns
(valid, repeat, claimed answer).  `None` and unrecognised strings are
invalid; `"repeat"` asks for a repeat; `"yes"`/`"no"` claim TRUE/FALSE. -/
def parse_answer : Option String → Bool × Bool × Option QuizAnswer
  | none => (false, false, none)
  | some answer_content =>
    if answer_content = "repeat" then (true, true, none)
    else if answer_content = "yes" then (true, false, some .TRUE)
    else if answer_content = "no" then (true, false, some .FALSE)
    else (false, false, none)

/-- The semantic action of the specification's AnswerProtocol. -/
inductive Action where
  | Repeat
  | Correct
  | Incorrect
  | Invalid
deriving DecidableEq, Repr

/-- The action the `run` method derives from a raw payload and the current
question's expected answer: `__parse_answer` followed by the comparison
`question.get_answer() == answer` (a claimed answer is present exactly in
the valid non-repeat case, and `None` compares unequal to any enum
value). -/
def interpret (raw : Option String) (expected_answer : QuizAnswer) : Action :=
  match parse_answer raw with
  | (false, _, _) => .Invalid
  | (true, true, _) => .Repeat
  | (true, false, a) => if a = some expected_answer then .Correct else .Incorrect

/-- The rejection-sampling loop of `__pick_question`: each `randint` draw is
modelled by the next element of `draws` reduced modulo `modulus` (the number
of values `randint` can return); the first draw not already in `picked` is
accepted.  Returns the accepted index and the unconsumed draws, or `none`
when the supplied draw stream runs out before a draw is accepted. -/
def sample_index (modulus : Nat) (picked : List Nat) :
    List Nat → Option (Nat × List Nat)
  | [] => none
  | r :: rest =>
    let q_index := r % modulus
    if q_index ∈ picked then sample_index modulus picked rest
    else some (q_index, rest)

/-- QuizController.__pick_question of the current version.  If a repeat is
pending, clear the flag and return the question at the last picked index
(an empty picked list or an out-of-range stored index is a Python
IndexError, modelled as `none`).  Otherwise draw `randint(0, len-1)` —
a value in [0, len) — until the draw is not already picked, append the
accepted index and return the corresponding question.  An empty bank makes
`randint(0, -1)` raise, modelled as `none`. -/
def pick_question (bank : List QuizQuestion) (s : SessionState)
    (draws : List Nat) : Option (QuizQuestion × SessionState × List Nat) :=
  if s.to_repeat then
    match s.picked_questions.getLast? with
    | none => none
    | some i =>
      match bank[i]? with
      | none => none
      | some q => some (q, { s with to_repeat := false }, draws)
  else if bank.length = 0 then none
  else
    match sample_index bank.length s.picked_questions draws with
    | none => none
    | some (q_index, rest) =>
      match bank[q_index]? with
      | none => none
      | some q =>
        some (q, { s with picked_questions := s.picked_questions ++ [q_index] },
              rest)

/-- The explanation step of `run`: when the question has an attached
explanation file, an idle animation and the explanation track are played;
otherwise nothing. -/
def explanation_events (question : QuizQuestion) : List Event :=
  match question.get_explanation_file with
  | none => []
  | some explanation => [.led .ANIM_IDLE, .audio explanation]

/-- One iteration of the outer `while self.__alive` loop of `run`, given the
answer string `a` that the wait loop eventually receives and the random draw
stream.  Returns the state after the iteration, the events emitted during
it, and the unconsumed draws; `none` models a raised exception or an
exhausted draw stream inside `__pick_question`. -/
def run_iter (bank : List QuizQuestion) (limit : Nat) (s : SessionState)
    (a : String) (draws : List Nat) :
    Option (SessionState × List Event × List Nat) :=
  match pick_question bank s draws with
  | none => none
  | some (question, s1, draws1) =>
    let ask_events : List Event := [.led .ANIM_IDLE, .audio question.get_audio_file]
    let (valid, rep, answer) := parse_answer (some a)
    if valid = false then
      some ({ s1 with to_repeat := true },
            ask_events ++ [.led .ANIM_ERROR, .audio "validqr"], draws1)
    else if rep then
      some ({ s1 with to_repeat := true }, ask_events, draws1)
    else
      let eval_events : List Event :=
        if answer = some question.get_answer then
          [.led .ANIM_SUCCESS, .audio "correct"]
        else [.led .ANIM_ERROR, .audio "wrong"]
      let asked1 := s1.asked_questions + 1
      let s2 := { s1 with asked_questions := asked1 }
      if limit ≤ asked1 then
        some (stop s2,
              ask_events ++ eval_events ++ explanation_events question
                ++ [.led .ANIM_IDLE, .audio "endquiz"], draws1)
      else
        some (s2, ask_events ++ eval_events ++ explanation_events question,
              draws1)

/-- The `run` method: loop while alive, one `run_iter` per delivered answer;
when the loop exits, notify the completion handler (the final
`Event.completed`).  `answers` is the sequence of answers delivered during
the session; a session still alive after the last delivered answer blocks
forever in the wait loop, modelled as `none`. -/
def run_loop (bank : List QuizQuestion) (limit : Nat) :
    List String → List Nat → SessionState → Option (SessionState × List Event)
  | [], _, s => if s.alive then none else some (s, [.completed])
  | a :: rest, draws, s =>
    if s.alive then
      match run_iter bank limit s a draws with
      | none => none
      | some (s1, ev, draws1) =>
        match run_loop bank limit rest draws1 s1 with
        | none => none
        | some (s2, ev2) => some (s2, ev ++ ev2)
    else some (s, [.completed])

/-- The question-count limit of the current version. -/
def QUESTIONS_LIMIT : Nat := 2

/-- Python runtime errors raised by the older controller version. -/
inductive PyError where
  | attributeError (name : String)
  | indexError
deriving DecidableEq, Repr

/-- A quiz question of the older version: question text and expected
answer. -/
structure OldQuizQuestion where
  question : String
  answer : QuizAnswer
deriving DecidableEq, Repr

/-- The module-level question list of the older version. -/
def quiz_questions_old : List OldQuizQuestion :=
  [{ question := "test question", answer := .TRUE },
   { question := "false?", answer := .FALSE },
   { question := "maybe not", answer := .TRUE }]

/-- The per-session attributes of the older controller.  The
`picked_questions` attribute is only a class-level annotation in the
source; `none` models the attribute never having been assigned. -/
structure OldSessionState where
  alive : Bool
  received_answer : Option String
  asked_questions : Nat
  picked_questions : Option (List Nat)
deriving DecidableEq, Repr

/-- The older `__init__`: sets alive, received answer and the asked counter,
but never assigns `self.__picked_questions`. -/
def old_init : OldSessionState :=
  { alive := true
    received_answer := none
    asked_questions := 0
    picked_questions := none }

/-- The older `__pick_question`: reading an unassigned attribute raises
AttributeError; the draw is `randint(0, len(quiz_questions))`, inclusive of
BOTH endpoints, so each draw is modelled as the next stream element modulo
`len + 1`; the accepted index is appended and used to index the bank, where
an index equal to the length raises IndexError. -/
def old_pick_question (s : OldSessionState) (draws : List Nat) :
    Except PyError (OldQuizQuestion × OldSessionState × List Nat) :=
  match s.picked_questions with
  | none => .error (.attributeError "_QuizController__picked_questions")
  | some picked =>
    match sample_index (quiz_questions_old.length + 1) picked draws with
    | none => .error .indexError
    | some (q_index, rest) =>
      match quiz_questions_old[q_index]? with
      | none => .error .indexError
      | some q =>
        .ok (q, { s with picked_questions := some (picked ++ [q_index]) }, rest)

/-- The older `__parse_answer`: recognises the prefixed grammar
`"quiz_answer:T"` / `"quiz_answer:F"`; everything else (including an absent
payload) is invalid. -/
def old_parse_answer (raw_answer : Option String) : Bool × Option QuizAnswer :=
  match raw_answer with
  | none => (false, none)
  | some raw =>
    if ¬ (raw.startsWith "quiz_answer:") then (false, none)
    else
      let answer_content := ((raw.splitOn ":")[1]?).getD ""
      if answer_content = "T" then (true, some .TRUE)
      else if answer_content = "F" then (true, some .FALSE)
      else (false, none)

/-- One iteration of the older `run` loop: pick (which can raise), wait for
the answer `a`, parse it, compare (no effect in the source: the reaction
branches are TODO/pass), and increment the asked counter unconditionally;
stop once the limit is reached. -/
def old_run_iter (limit : Nat) (s : OldSessionState) (a : String)
    (draws : List Nat) : Except PyError (OldSessionState × List Nat) :=
  match old_pick_question s draws with
  | .error e => .error e
  | .ok (_question, s1, draws1) =>
    let (_valid, _answer) := old_parse_answer (some a)
    let asked1 := s1.asked_questions + 1
    let s2 := { s1 with asked_questions := asked1 }
    if limit ≤ asked1 then .ok ({ s2 with alive := false }, draws1)
    else .ok (s2, draws1)

/-- A sample question bank used to instantiate theorems on concrete inputs
(the bank of the end-to-end scenario in the specification). -/
def bank_ex : List QuizQuestion :=
  [{ audio_file := "q1", answer := .TRUE, explanation_file := none },
   { audio_file := "q2", answer := .FALSE, explanation_file := some "e2" },
   { audio_file := "q3", answer := .TRUE, explanation_file := none }]

/-! Helper lemmas shared by the claim theorems. -/

lemma sample_index_sound (modulus : Nat) (picked : List Nat) (hm : 0 < modulus) :
    ∀ draws i rest, sample_index modulus picked draws = some (i, rest) →
      i ∉ picked ∧ i < modulus := by
  intro draws
  induction draws with
  | nil => intro i rest h; simp [sample_index] at h
  | cons r tail ih =>
    intro i rest h
    by_cases hmem : r % modulus ∈ picked
    · exact ih i rest (by simpa [sample_index, hmem] using h)
    · have hfirst : i = r % modulus ∧ rest = tail := by
        have := h
        simp [sample_index, hmem] at this
        exact ⟨this.1.symm, this.2.symm⟩
      rcases hfirst with ⟨hi, -⟩
      subst hi
      exact ⟨hmem, Nat.mod_lt r hm⟩

lemma parse_answer_yes : parse_answer (some "yes") = (true, false, some .TRUE) := by
  decide

lemma exists_fresh_index (n : Nat) (picked : List Nat)
    (hd : picked.Nodup) (hl : picked.length < n) :
    ∃ k, k < n ∧ k ∉ picked := by
  by_contra h
  push_neg at h
  have hsub : List.range n ⊆ picked := by
    intro k hk
    exact h k (List.mem_range.mp hk)
  have hle : n ≤ picked.length := by
    simpa using (List.subperm_of_subset (List.nodup_range n) hsub).length_le
  omega

lemma pick_question_fresh {bank : List QuizQuestion} {s : SessionState}
    {draws : List Nat} {q : QuizQuestion} {s' : SessionState} {d' : List Nat}
    (hrep : s.to_repeat = false)
    (h : pick_question bank s draws = some (q, s', d')) :
    ∃ i, i < bank.length ∧ i ∉ s.picked_questions ∧
      s'.picked_questions = s.picked_questions ++ [i] ∧ bank[i]? = some q ∧
      s'.to_repeat = s.to_repeat ∧ s'.alive = s.alive ∧
      s'.asked_questions = s.asked_questions ∧
      s'.received_answer = s.received_answer := by
  unfold pick_question at h
  rw [hrep] at h
  simp only [Bool.false_eq_true, if_false] at h
  by_cases hn : bank.length = 0
  · simp [hn] at h
  · simp only [hn, if_false] at h
    split at h
    · exact absurd h (by simp)
    next i rest hs =>
      split at h
      · exact absurd h (by simp)
      next q0 hb =>
        simp only [Option.some.injEq, Prod.mk.injEq] at h
        obtain ⟨hq, hstate, hdr⟩ := h
        subst hstate
        obtain ⟨hnotmem, hlt⟩ :=
          sample_index_sound bank.length s.picked_questions
            (Nat.pos_of_ne_zero hn) draws i rest hs
        exact ⟨i, hlt, hnotmem, rfl, hq ▸ hb, hrep.symm, rfl, rfl, rfl⟩

lemma pick_question_preserves {bank : List QuizQuestion} {s : SessionState}
    {draws : List Nat} {q : QuizQuestion} {s1 : SessionState} {d1 : List Nat}
    (h : pick_question bank s draws = some (q, s1, d1)) :
    s1.alive = s.alive ∧ s1.asked_questions = s.asked_questions ∧
      s1.received_answer = s.received_answer := by
  unfold pick_question at h
  split at h
  · split at h
    · exact absurd h (by simp)
    · split at h
      · exact absurd h (by simp)
      · simp only [Option.some.injEq, Prod.mk.injEq] at h
        obtain ⟨-, hstate, -⟩ := h
        subst hstate
        exact ⟨rfl, rfl, rfl⟩
  · split at h
    · exact absurd h (by simp)
    · split at h
      · exact absurd h (by simp)
      · split at h
        · exact absurd h (by simp)
        · simp only [Option.some.injEq, Prod.mk.injEq] at h
          obtain ⟨-, hstate, -⟩ := h
          subst hstate
          exact ⟨rfl, rfl, rfl⟩

lemma run_iter_spec {bank : List QuizQuestion} {limit : Nat} {s : SessionState}
    {a : String} {draws : List Nat} {s' : SessionState} {ev : List Event}
    {d' : List Nat} (h : run_iter bank limit s a draws = some (s', ev, d')) :
    ∃ question s1, pick_question bank s draws = some (question, s1, d') ∧
      ((parse_answer (some a)).1 = false ∧
          s' = { s1 with to_repeat := true } ∧
          ev = [.led .ANIM_IDLE, .audio question.get_audio_file,
                .led .ANIM_ERROR, .audio "validqr"]
        ∨ (parse_answer (some a)).1 = true ∧ (parse_answer (some a)).2.1 = true ∧
          s' = { s1 with to_repeat := true } ∧
          ev = [.led .ANIM_IDLE, .audio question.get_audio_file]
        ∨ (parse_answer (some a)).1 = true ∧ (parse_answer (some a)).2.1 = false ∧
          s' = (if limit ≤ s1.asked_questions + 1
                then stop { s1 with asked_questions := s1.asked_questions + 1 }
                else { s1 with asked_questions := s1.asked_questions + 1 }) ∧
          ev = [.led .ANIM_IDLE, .audio question.get_audio_file]
              ++ (if (parse_answer (some a)).2.2 = some question.get_answer
                  then [.led .ANIM_SUCCESS, .audio "correct"]
                  else [.led .ANIM_ERROR, .audio "wrong"])
              ++ explanation_events question
              ++ (if limit ≤ s1.asked_questions + 1
                  then [.led .ANIM_IDLE, .audio "endquiz"] else [])) := by
  unfold run_iter at h
  split at h
  · exact absurd h (by simp)
  next question s1 draws1 hp =>
    rcases hpa : parse_answer (some a) with ⟨valid, rep, answer⟩
    rw [hpa] at h
    dsimp only at h
    by_cases hv : valid = false
    · rw [if_pos (by simp [hv])] at h
      simp only [Option.some.injEq, Prod.mk.injEq] at h
      obtain ⟨hs', hev, hd⟩ := h
      subst hd
      exact ⟨question, s1, hp, Or.inl ⟨by simp [hpa, hv], hs'.symm, hev.symm⟩⟩
    · have hv' : valid = true := by
        cases valid
        · exact absurd rfl hv
        · rfl
      rw [if_neg (by simp [hv'])] at h
      by_cases hr : rep = true
      · rw [hr, if_pos rfl] at h
        simp only [Option.some.injEq, Prod.mk.injEq] at h
        obtain ⟨hs', hev, hd⟩ := h
        subst hd
        exact ⟨question, s1, hp,
          Or.inr (Or.inl ⟨by simp [hpa, hv'], by simp [hpa, hr], hs'.symm, hev.symm⟩)⟩
      · have hr' : rep = false := by
          cases rep
          · rfl
          · exact absurd rfl hr
        rw [hr', if_neg (by simp)] at h
        by_cases hl : limit ≤ s1.asked_questions + 1
        · rw [if_pos hl] at h
          simp only [Option.some.injEq, Prod.mk.injEq] at h
          obtain ⟨hs', hev, hd⟩ := h
          subst hd
          refine ⟨question, s1, hp, Or.inr (Or.inr ⟨by simp [hpa, hv'],
            by simp [hpa, hr'], ?_, ?_⟩)⟩
          · rw [if_pos hl, ← hs']
          · rw [if_pos hl, ← hev]
        · rw [if_neg hl] at h
          simp only [Option.some.injEq, Prod.mk.injEq] at h
          obtain ⟨hs', hev, hd⟩ := h
          subst hd
          refine ⟨question, s1, hp, Or.inr (Or.inr ⟨by simp [hpa, hv'],
            by simp [hpa, hr'], ?_, ?_⟩)⟩
          · rw [if_neg hl, ← hs']
          · rw [if_neg hl, ← hev]
            simp

lemma run_iter_not_completed {bank : List QuizQuestion} {limit : Nat}
    {s : SessionState} {a : String} {draws : List Nat} {s' : SessionState}
    {ev : List Event} {d' : List Nat}
    (h : run_iter bank limit s a draws = some (s', ev, d')) :
    Event.completed ∉ ev := by
  obtain ⟨question, s1, -, hcase⟩ := run_iter_spec h
  rcases hcase with ⟨-, -, hev⟩ | ⟨-, -, -, hev⟩ | ⟨-, -, -, hev⟩ <;> subst hev
  · simp
  · simp
  · intro hmem
    simp only [List.mem_append] at hmem
    rcases hmem with ((hmem | hmem) | hmem) | hmem
    · simp at hmem
    · split at hmem <;> simp at hmem
    · unfold explanation_events at hmem
      split at hmem <;> simp at hmem
    · split at hmem <;> simp at hmem

lemma run_loop_exit {bank : List QuizQuestion} {limit : Nat} :
    ∀ answers draws (s sf : SessionState) ev,
      run_loop bank limit answers draws s = some (sf, ev) →
      sf.alive = false ∧ ev.count Event.completed = 1 := by
  intro answers
  induction answers with
  | nil =>
    intro draws s sf ev h
    unfold run_loop at h
    by_cases ha : s.alive
    · simp [ha] at h
    · simp only [ha, if_neg, Bool.false_eq_true, if_false, Option.some.injEq,
        Prod.mk.injEq] at h
      obtain ⟨hs, hev⟩ := h
      subst hs
      subst hev
      exact ⟨by simpa using ha, by decide⟩
  | cons a rest ih =>
    intro draws s sf ev h
    unfold run_loop at h
    by_cases ha : s.alive
    · rw [if_pos (by simp [ha])] at h
      split at h
      · exact absurd h (by simp)
      next s1 ev1 d1 hiter =>
        split at h
        · exact absurd h (by simp)
        next s2 ev2 hrest =>
          simp only [Option.some.injEq, Prod.mk.injEq] at h
          obtain ⟨hs, hev⟩ := h
          obtain ⟨halive, hcount⟩ := ih d1 s1 s2 ev2 hrest
          subst hs
          subst hev
          refine ⟨halive, ?_⟩
          rw [List.count_append, hcount,
            List.count_eq_zero.mpr (run_iter_not_completed hiter)]
    · rw [if_neg (by simp [ha])] at h
      simp only [Option.some.injEq, Prod.mk.injEq] at h
      obtain ⟨hs, hev⟩ := h
      subst hs
      subst hev
      exact ⟨by simpa using ha, by decide⟩

/-- The counter invariant maintained by the session loop: the asked counter
never exceeds the limit, and a live session has asked strictly fewer than
the limit. -/
def AskedInv (limit : Nat) (s : SessionState) : Prop :=
  s.asked_questions ≤ limit ∧ (s.alive = true → s.asked_questions < limit)

lemma run_iter_askedInv {bank : List QuizQuestion} {limit : Nat}
    {s : SessionState} {a : String} {draws : List Nat} {s' : SessionState}
    {ev : List Event} {d' : List Nat}
    (h : run_iter bank limit s a draws = some (s', ev, d'))
    (hinv : AskedInv limit s) (halive : s.alive = true) :
    AskedInv limit s' := by
  obtain ⟨question, s1, hp, hcase⟩ := run_iter_spec h
  obtain ⟨ha1, hq1, -⟩ := pick_question_preserves hp
  obtain ⟨hle, hlt⟩ := hinv
  have hlt1 : s1.asked_questions < limit := by
    rw [hq1]
    exact hlt halive
  rcases hcase with ⟨-, hs', -⟩ | ⟨-, -, hs', -⟩ | ⟨-, -, hs', -⟩ <;> subst hs'
  · exact ⟨by simpa [hq1] using hle, fun _ => hlt1⟩
  · exact ⟨by simpa [hq1] using hle, fun _ => hlt1⟩
  · by_cases hl : limit ≤ s1.asked_questions + 1
    · rw [if_pos hl]
      exact ⟨by simpa [stop] using hlt1, by simp [stop]⟩
    · rw [if_neg hl]
      refine ⟨?_, fun _ => ?_⟩ <;> simp <;> omega

lemma run_iter_yes {bank : List QuizQuestion} (limit : Nat) {s : SessionState}
    {k : Nat} (d' : List Nat) (hrep : s.to_repeat = false)
    (hk : k < bank.length) (hkp : k ∉ s.picked_questions)
    {q : QuizQuestion} (hq : bank[k]? = some q) :
    run_iter bank limit s "yes" (k :: d') =
      some ((if limit ≤ s.asked_questions + 1
             then stop { s with picked_questions := s.picked_questions ++ [k],
                                asked_questions := s.asked_questions + 1 }
             else { s with picked_questions := s.picked_questions ++ [k],
                           asked_questions := s.asked_questions + 1 }),
            [Event.led .ANIM_IDLE, Event.audio q.get_audio_file]
              ++ (if (some QuizAnswer.TRUE : Option QuizAnswer) = some q.get_answer
                  then [Event.led .ANIM_SUCCESS, Event.audio "correct"]
                  else [Event.led .ANIM_ERROR, Event.audio "wrong"])
              ++ explanation_events q
              ++ (if limit ≤ s.asked_questions + 1
                  then [Event.led .ANIM_IDLE, Event.audio "endquiz"] else []),
            d') := by
  have hn : ¬ bank.length = 0 := by omega
  have hsample : sample_index bank.length s.picked_questions (k :: d') =
      some (k, d') := by
    unfold sample_index
    rw [Nat.mod_eq_of_lt hk]
    simp [hkp]
  have hp : pick_question bank s (k :: d') =
      some (q, { s with picked_questions := s.picked_questions ++ [k] }, d') := by
    unfold pick_question
    rw [hrep]
    simp only [Bool.false_eq_true, if_false, hn, hsample, hq]
  unfold run_iter
  rw [hp]
  dsimp only
  rw [parse_answer_yes]
  dsimp only
  by_cases hl : limit ≤ s.asked_questions + 1
  · simp [hl]
  · simp [hl]

lemma run_loop_total {bank : List QuizQuestion} {limit : Nat}
    (h2 : limit ≤ bank.length) :
    ∀ fuel (s : SessionState), s.alive = true → s.to_repeat = false →
      s.picked_questions.Nodup →
      s.picked_questions.length ≤ s.asked_questions →
      s.asked_questions < limit → limit ≤ s.asked_questions + fuel →
      ∃ answers draws, (run_loop bank limit answers draws s).isSome = true := by
  intro fuel
  induction fuel with
  | zero => intro s _ _ _ _ hlt hfuel; omega
  | succ fuel ih =>
    intro s halive hrep hnd hlen hlt hfuel
    have hplen : s.picked_questions.length < bank.length := by omega
    obtain ⟨k, hk, hkp⟩ := exists_fresh_index bank.length s.picked_questions hnd hplen
    obtain ⟨q, hq⟩ : ∃ q, bank[k]? = some q :=
      ⟨bank[k], List.getElem?_eq_getElem hk⟩
    by_cases hstop : limit ≤ s.asked_questions + 1
    · have hiter := run_iter_yes limit [] hrep hk hkp hq
      rw [if_pos hstop] at hiter
      refine ⟨["yes"], [k], ?_⟩
      unfold run_loop
      rw [if_pos (by simp [halive]), hiter]
      dsimp only
      unfold run_loop
      rw [if_neg (by simp [stop])]
      rfl
    · obtain ⟨answers', draws', hrun⟩ :=
        ih { s with picked_questions := s.picked_questions ++ [k],
                    asked_questions := s.asked_questions + 1 }
          (by simpa using halive) (by simpa using hrep)
          (by simp [List.nodup_append, hnd, hkp])
          (by simp; omega) (by simp; omega) (by simp; omega)
      obtain ⟨out, hout⟩ := Option.isSome_iff_exists.mp hrun
      obtain ⟨sf, ef⟩ := out
      have hiter := run_iter_yes limit draws' hrep hk hkp hq
      rw [if_neg hstop] at hiter
      refine ⟨"yes" :: answers', k :: draws', ?_⟩
      unfold run_loop
      rw [if_pos (by simp [halive]), hiter]
      dsimp only
      rw [hout]
      rfl

lemma pick_question_repeat {bank : List QuizQuestion} {s : SessionState}
    {draws : List Nat} {q : QuizQuestion} {s' : SessionState} {d' : List Nat}
    (hrep : s.to_repeat = true)
    (h : pick_question bank s draws = some (q, s', d')) :
    s' = { s with to_repeat := false } ∧ d' = draws ∧
      ∃ i, s.picked_questions.getLast? = some i ∧ bank[i]? = some q := by
  unfold pick_question at h
  split at h
  · split at h
    · exact absurd h (by simp)
    next i hlast =>
      split at h
      · exact absurd h (by simp)
      next q0 hb =>
        simp only [Option.some.injEq, Prod.mk.injEq] at h
        obtain ⟨hq, hs, hd⟩ := h
        exact ⟨hs.symm, hd.symm, i, hlast, hq ▸ hb⟩
  next hcond => exact absurd hrep hcond

lemma run_loop_askedInv {bank : List QuizQuestion} {limit : Nat} :
    ∀ answers draws (s sf : SessionState) ev,
      run_loop bank limit answers draws s = some (sf, ev) →
      AskedInv limit s → AskedInv limit sf := by
  intro answers
  induction answers with
  | nil =>
    intro draws s sf ev h hinv
    unfold run_loop at h
    by_cases ha : s.alive
    · simp [ha] at h
    · simp only [ha, Bool.false_eq_true, if_false, Option.some.injEq,
        Prod.mk.injEq] at h
      obtain ⟨hs, -⟩ := h
      subst hs
      exact hinv
  | cons a rest ih =>
    intro draws s sf ev h hinv
    unfold run_loop at h
    by_cases ha : s.alive
    · rw [if_pos (by simp [ha])] at h
      split at h
      · exact absurd h (by simp)
      next s1 ev1 d1 hiter =>
        split at h
        · exact absurd h (by simp)
        next s2 ev2 hrest =>
          simp only [Option.some.injEq, Prod.mk.injEq] at h
          obtain ⟨hs, -⟩ := h
          subst hs
          exact ih d1 s1 s2 ev2 hrest (run_iter_askedInv hiter hinv (by simpa using ha))
    · rw [if_neg (by simp [ha])] at h
      simp only [Option.some.injEq, Prod.mk.injEq] at h
      obtain ⟨hs, -⟩ := h
      subst hs
      exact hinv

/-! Claim theorems. -/

/-- C1: AnswerProtocol's interpret is a pure function of the raw payload and
the current question's expected answer: "repeat" yields Repeat; "yes" claims
TRUE and "no" claims FALSE, with a claimed answer equal to the expected
answer yielding Correct and unequal yielding Incorrect; any other payload,
including the empty string and an absent payload, yields Invalid. -/
theorem interpret_pure_protocol (e : QuizAnswer) (p : String) :
    interpret (some "repeat") e = .Repeat ∧
    interpret (some "yes") e = (if e = .TRUE then .Correct else .Incorrect) ∧
    interpret (some "no") e = (if e = .FALSE then .Correct else .Incorrect) ∧
    interpret none e = .Invalid ∧
    interpret (some "") e = .Invalid ∧
    (p ≠ "repeat" → p ≠ "yes" → p ≠ "no" → interpret (some p) e = .Invalid) := by
  refine ⟨?_, ?_, ?_, ?_, ?_, ?_⟩
  · cases e <;> decide
  · cases e <;> decide
  · cases e <;> decide
  · cases e <;> decide
  · cases e <;> decide
  · intro h1 h2 h3
    simp [interpret, parse_answer, h1, h2, h3]

/-- C1 witness: the protocol on the concrete payload "maybe". -/
theorem interpret_pure_protocol_witness :
    interpret (some "maybe") QuizAnswer.TRUE = Action.Invalid :=
  (interpret_pure_protocol QuizAnswer.TRUE "maybe").2.2.2.2.2
    (by decide) (by decide) (by decide)

/-- C3: the sampler never returns an index already present in
picked_questions unless a repeat is pending; with a repeat pending it clears
the flag and returns the question at the most recently appended index
without modifying picked_questions; hence picked_questions never acquires a
duplicate. -/
theorem sampler_no_duplicates (bank : List QuizQuestion) (s : SessionState)
    (draws : List Nat) (q : QuizQuestion) (s' : SessionState) (d' : List Nat)
    (h : pick_question bank s draws = some (q, s', d')) :
    (s.to_repeat = false →
        ∃ i, i ∉ s.picked_questions ∧
          s'.picked_questions = s.picked_questions ++ [i] ∧ bank[i]? = some q) ∧
    (s.to_repeat = true →
        s'.to_repeat = false ∧ s'.picked_questions = s.picked_questions ∧
        ∃ i, s.picked_questions.getLast? = some i ∧ bank[i]? = some q) ∧
    (s.picked_questions.Nodup → s'.picked_questions.Nodup) := by
  by_cases hr : s.to_repeat = true
  · obtain ⟨hs', -, i, hlast, hb⟩ := pick_question_repeat hr h
    subst hs'
    refine ⟨fun hf => absurd hr (by simp [hf]), fun _ => ⟨rfl, rfl, i, hlast, hb⟩,
      fun hnd => hnd⟩
  · have hr' : s.to_repeat = false := by
      cases hcase : s.to_repeat
      · rfl
      · exact absurd hcase hr
    obtain ⟨i, -, hnotmem, hpicked, hb, -, -, -, -⟩ := pick_question_fresh hr' h
    refine ⟨fun _ => ⟨i, hnotmem, hpicked, hb⟩,
      fun hf => absurd hf hr, fun hnd => ?_⟩
    rw [hpicked]
    simp [List.nodup_append, hnd, hnotmem]

/-- C3 witness: the sampler on a fresh session with a concrete draw. -/
theorem sampler_no_duplicates_witness :
    ∃ i, i ∉ init_state.picked_questions ∧
      ({ alive := true, received_answer := none, asked_questions := 0,
         to_repeat := false, picked_questions := [0] } :
          SessionState).picked_questions =
        init_state.picked_questions ++ [i] ∧
      bank_ex[i]? = some { audio_file := "q1", answer := .TRUE,
                           explanation_file := none } :=
  (sampler_no_duplicates bank_ex init_state [0]
      { audio_file := "q1", answer := .TRUE, explanation_file := none }
      { alive := true, received_answer := none, asked_questions := 0,
        to_repeat := false, picked_questions := [0] }
      [] rfl).1 rfl

/-- C6: the claim holds for the current sampler (a draw is `randint(0,
len-1)`, so every accepted index is strictly below the bank size and the
lookup is in bounds), but the older sampler draws `randint(0, len)`
inclusive of the upper endpoint: the draw 3 on the 3-question bank is
accepted and the lookup raises IndexError. -/
theorem sampler_bounds_current_vs_old :
    (∀ (bank : List QuizQuestion) picked draws i rest, bank ≠ [] →
        sample_index bank.length picked draws = some (i, rest) →
        i < bank.length ∧ ∃ q, bank[i]? = some q) ∧
    (3 % (quiz_questions_old.length + 1) = 3 ∧
     old_pick_question { old_init with picked_questions := some [] } [3] =
       Except.error PyError.indexError) := by
  constructor
  · intro bank picked draws i rest hne hs
    have hpos : 0 < bank.length := List.length_pos.mpr hne
    obtain ⟨-, hlt⟩ := sample_index_sound bank.length picked hpos draws i rest hs
    exact ⟨hlt, bank[i], List.getElem?_eq_getElem hlt⟩
  · exact ⟨rfl, rfl⟩

/-- C6 witness: the current sampler at a concrete accepted draw. -/
theorem sampler_bounds_current_vs_old_witness :
    0 < bank_ex.length ∧ ∃ q, bank_ex[0]? = some q :=
  sampler_bounds_current_vs_old.1 bank_ex [] [0] 0 [] (by decide) rfl

/-- C7: an external stop request sets alive to false, but a session blocked
awaiting an answer does NOT observe the stop: the wait-loop guard inspects
only the received-answer slot, so with no further mailbox delivery the loop
never exits no matter how many poll cycles elapse. -/
theorem stop_not_observed_while_awaiting :
    (∀ s : SessionState, (stop s).alive = false) ∧
    answer_wait_continues (stop init_state) = true ∧
    (∀ fuel, wait_for_answer fuel (stop init_state) = false) := by
  refine ⟨fun s => rfl, rfl, ?_⟩
  intro fuel
  induction fuel with
  | zero => rfl
  | succ fuel ih =>
    unfold wait_for_answer
    rw [if_pos (show (stop init_state).received_answer = none from rfl)]
    exact ih

/-- C8: delivering to the empty mailbox and then taking returns the payload
and leaves the slot empty (a second take returns nothing), and a second
deliver before a take overwrites the first payload. -/
theorem mailbox_last_write_wins (p q : String) (m : Option String) :
    (take_received_answer (handle_code none p)).1 = some p ∧
    (take_received_answer (handle_code none p)).2 = none ∧
    (take_received_answer
        (take_received_answer (handle_code none p)).2).1 = none ∧
    handle_code (handle_code m p) q = handle_code m q :=
  ⟨rfl, rfl, rfl, rfl⟩

/-- C10: the older controller's constructor never initialises the
picked-questions list (it is only a class annotation), so on a freshly
constructed controller the first call to the question-picking step — and
hence the first iteration of the session loop — fails with an
AttributeError before any question can be asked. -/
theorem old_controller_uninitialised_picked :
    old_init.picked_questions = none ∧
    (∀ draws, old_pick_question old_init draws =
        Except.error (PyError.attributeError "_QuizController__picked_questions")) ∧
    (∀ limit a draws, old_run_iter limit old_init a draws =
        Except.error (PyError.attributeError "_QuizController__picked_questions")) :=
  ⟨rfl, fun _ => rfl, fun _ _ _ => rfl⟩

lemma parse_file_error_of_missing_audio :
    ∀ qs : List QuestionRecord, (∃ r ∈ qs, r.audio = none) →
      ∃ e, parse_file qs = .error e := by
  intro qs
  induction qs with
  | nil => intro h; simp at h
  | cons r rest ih =>
    intro h
    rcases hpq : parse_question r with e | q
    · exact ⟨e, by unfold parse_file; rw [hpq]⟩
    · have hrest : ∃ r' ∈ rest, r'.audio = none := by
        rcases h with ⟨r', hmem, hnone⟩
        rcases List.mem_cons.mp hmem with heq | hmem'
        · subst heq
          simp [parse_question, hnone] at hpq
        · exact ⟨r', hmem', hnone⟩
      obtain ⟨e, he⟩ := ih hrest
      exact ⟨e, by unfold parse_file; rw [hpq, he]⟩

/-- C5 counterexample: a malformed answer value — here "X", outside
{"T","F"} — does NOT abort the load; the whole load succeeds and silently
stores the answer as FALSE. -/
theorem load_accepts_malformed_answer :
    parse_file [{ audio := some "q1", answer := some "X", explanation := some "" }] =
      Except.ok [{ audio_file := "q1", answer := .FALSE,
                   explanation_file := none }] := rfl

/-- C5 (amended): loading is fail-fast for a missing audio field — any entry
with no audio key aborts the whole load with a configuration error and no
partial bank is returned (the result type carries either an error or the
full bank) — but an answer value other than "T", including malformed values
outside the enumeration, does not abort: it is silently parsed as FALSE. -/
theorem load_fail_fast_missing_audio (qs : List QuestionRecord)
    (h : ∃ r ∈ qs, r.audio = none) :
    (∃ e, parse_file qs = .error e) ∧
    (∀ audio ans expl, ans ≠ "T" →
        parse_question { audio := some audio, answer := some ans,
                         explanation := some expl } =
          Except.ok { audio_file := audio, answer := .FALSE,
                      explanation_file := if expl = "" then none
                                          else some expl }) := by
  refine ⟨parse_file_error_of_missing_audio qs h, ?_⟩
  intro audio ans expl hne
  simp [parse_question, hne]

/-- C5 witness: the amended claim at a one-entry source missing audio. -/
theorem load_fail_fast_missing_audio_witness :
    ∃ e, parse_file [{ audio := none, answer := some "T",
                       explanation := some "" }] = .error e :=
  (load_fail_fast_missing_audio
      [{ audio := none, answer := some "T", explanation := some "" }]
      ⟨{ audio := none, answer := some "T", explanation := some "" },
        by simp, rfl⟩).1

/-- C4: the asked counter is incremented exactly once per question that is
neither repeated nor answered invalidly (a Repeat or Invalid answer leaves
it unchanged — in `__parse_answer` terms, the counter moves exactly when
valid is true and repeat is false), and over any run started from the
initial state it never exceeds the question limit. -/
theorem asked_count_spec (bank : List QuizQuestion) (limit : Nat)
    (h1 : 1 ≤ limit) :
    (∀ s a draws s' ev d' valid rep ans,
        run_iter bank limit s a draws = some (s', ev, d') →
        parse_answer (some a) = (valid, rep, ans) →
        s'.asked_questions =
          (if valid = true ∧ rep = false then s.asked_questions + 1
           else s.asked_questions)) ∧
    (∀ answers draws sf ev,
        run_loop bank limit answers draws init_state = some (sf, ev) →
        sf.asked_questions ≤ limit) := by
  constructor
  · intro s a draws s' ev d' valid rep ans h hpa
    obtain ⟨question, s1, hp, hcase⟩ := run_iter_spec h
    obtain ⟨-, hq1, -⟩ := pick_question_preserves hp
    rcases hcase with ⟨hv, hs', -⟩ | ⟨hv, hrep, hs', -⟩ | ⟨hv, hrep, hs', -⟩
    · rw [hpa] at hv
      subst hs'
      simp only at hv
      rw [if_neg (by simp [hv])]
      simpa using hq1
    · rw [hpa] at hv
      rw [hpa] at hrep
      subst hs'
      simp only at hv hrep
      rw [if_neg (by simp [hrep])]
      simpa using hq1
    · rw [hpa] at hv
      rw [hpa] at hrep
      simp only at hv hrep
      subst hs'
      by_cases hl : limit ≤ s1.asked_questions + 1
      · rw [if_pos hl, if_pos (show valid = true ∧ rep = false from ⟨hv, hrep⟩)]
        simp [stop, hq1]
      · rw [if_neg hl, if_pos (show valid = true ∧ rep = false from ⟨hv, hrep⟩)]
        simp [hq1]
  · intro answers draws sf ev h
    have hinv : AskedInv limit init_state := by
      constructor
      · simp [init_state]
      · intro _
        simpa [init_state] using h1
    exact (run_loop_askedInv answers draws init_state sf ev h hinv).1

/-- C4 witness: one concrete iteration incrementing the counter once. -/
theorem asked_count_spec_witness :
    ({ alive := true, received_answer := none, asked_questions := 1,
       to_repeat := false, picked_questions := [0] } :
        SessionState).asked_questions =
      (if true = true ∧ false = false then init_state.asked_questions + 1
       else init_state.asked_questions) :=
  (asked_count_spec bank_ex 2 (by decide)).1 init_state "yes" [0]
    { alive := true, received_answer := none, asked_questions := 1,
      to_repeat := false, picked_questions := [0] }
    [.led .ANIM_IDLE, .audio "q1", .led .ANIM_SUCCESS, .audio "correct"]
    [] true false (some .TRUE) rfl rfl

/-- C2: for a bank at least as large as the question limit, every
terminating session run ends with alive false and notifies the completion
handler exactly once; a session whose alive flag is already false (that is,
stopped externally) exits immediately with the single completion
notification; and a run to the question-count limit exists — the
rejection-sampling pick loop can always accept a fresh index, because the
number of picked indices stays strictly below the bank size at every
pick. -/
theorem session_completion_exactly_once (bank : List QuizQuestion)
    (limit : Nat) (h1 : 1 ≤ limit) (h2 : limit ≤ bank.length) :
    (∀ answers draws sf ev,
        run_loop bank limit answers draws init_state = some (sf, ev) →
        sf.alive = false ∧ ev.count Event.completed = 1) ∧
    (∀ answers draws (s : SessionState), s.alive = false →
        run_loop bank limit answers draws s = some (s, [Event.completed])) ∧
    (∃ answers draws,
        (run_loop bank limit answers draws init_state).isSome = true) := by
  refine ⟨?_, ?_, ?_⟩
  · intro answers draws sf ev h
    exact run_loop_exit answers draws init_state sf ev h
  · intro answers draws s hs
    cases answers with
    | nil =>
      unfold run_loop
      rw [if_neg (by simp [hs])]
    | cons a rest =>
      unfold run_loop
      rw [if_neg (by simp [hs])]
  · exact run_loop_total h2 limit init_state rfl rfl
      (by simp [init_state]) (by simp [init_state])
      (by simpa [init_state] using h1) (by simp [init_state])

/-- C2 witness: the concrete three-question bank with limit two. -/
theorem session_completion_exactly_once_witness :
    ∃ answers draws,
      (run_loop bank_ex 2 answers draws init_state).isSome = true :=
  (session_completion_exactly_once bank_ex 2 (by decide) (by decide)).2.2

/-- C9: in an iteration whose answer is evaluated (valid and not a repeat,
hence Correct or Incorrect), the emitted events contain the explanation
segment `explanation_events question`, which is the idle animation plus the
explanation audio cue when the question has one and is empty exactly when
the question has none; and the factory stores an empty explanation field of
the configuration as an absent cue. -/
theorem explanation_played_iff_cue (bank : List QuizQuestion) (limit : Nat)
    (s : SessionState) (a : String) (draws : List Nat) (s' : SessionState)
    (ev : List Event) (d' : List Nat) (r : QuestionRecord) (q0 : QuizQuestion)
    (h : run_iter bank limit s a draws = some (s', ev, d'))
    (hv : (parse_answer (some a)).1 = true)
    (hr : (parse_answer (some a)).2.1 = false)
    (hq0 : parse_question r = Except.ok q0) :
    (∃ question s1, pick_question bank s draws = some (question, s1, d') ∧
        ev = [Event.led .ANIM_IDLE, Event.audio question.get_audio_file]
            ++ (if (parse_answer (some a)).2.2 = some question.get_answer
                then [Event.led .ANIM_SUCCESS, Event.audio "correct"]
                else [Event.led .ANIM_ERROR, Event.audio "wrong"])
            ++ explanation_events question
            ++ (if limit ≤ s1.asked_questions + 1
                then [Event.led .ANIM_IDLE, Event.audio "endquiz"] else []) ∧
        (explanation_events question = [] ↔
            question.get_explanation_file = none)) ∧
    (q0.get_explanation_file = none ↔ r.explanation = some "") := by
  constructor
  · obtain ⟨question, s1, hp, hcase⟩ := run_iter_spec h
    rcases hcase with ⟨hv', -⟩ | ⟨-, hr', -⟩ | ⟨-, -, -, hev⟩
    · rw [hv'] at hv
      exact absurd hv (by simp)
    · rw [hr'] at hr
      exact absurd hr (by simp)
    · refine ⟨question, s1, hp, hev, ?_⟩
      unfold explanation_events
      cases hE : question.get_explanation_file <;> simp
  · unfold parse_question at hq0
    split at hq0
    · exact absurd hq0 (by simp)
    · split at hq0
      · exact absurd hq0 (by simp)
      · split at hq0
        · exact absurd hq0 (by simp)
        next expl hexpl =>
          simp only [Except.ok.injEq] at hq0
          subst hq0
          rw [hexpl]
          unfold QuizQuestion.get_explanation_file
          by_cases he : expl = ""
          · simp [he]
          · simp [he]

/-- C9 witness: the second question of the sample bank, which carries the
explanation cue "e2", answered with the concrete payload "no". -/
theorem explanation_played_iff_cue_witness :
    ∃ question s1,
      pick_question bank_ex init_state [1] = some (question, s1, []) ∧
      ([Event.led .ANIM_IDLE, Event.audio "q2", Event.led .ANIM_SUCCESS,
        Event.audio "correct", Event.led .ANIM_IDLE, Event.audio "e2"] :
          List Event) =
        [Event.led .ANIM_IDLE, Event.audio question.get_audio_file]
          ++ (if (parse_answer (some "no")).2.2 = some question.get_answer
              then [Event.led .ANIM_SUCCESS, Event.audio "correct"]
              else [Event.led .ANIM_ERROR, Event.audio "wrong"])
          ++ explanation_events question
          ++ (if 2 ≤ s1.asked_questions + 1
              then [Event.led .ANIM_IDLE, Event.audio "endquiz"] else []) ∧
      (explanation_events question = [] ↔
          question.get_explanation_file = none) :=
  (explanation_played_iff_cue bank_ex 2 init_state "no" [1]
      { alive := true, received_answer := none, asked_questions := 1,
        to_repeat := false, picked_questions := [1] }
      [Event.led .ANIM_IDLE, Event.audio "q2", Event.led .ANIM_SUCCESS,
       Event.audio "correct", Event.led .ANIM_IDLE, Event.audio "e2"]
      [] { audio := some "qq", answer := some "T", explanation := some "" }
      { audio_file := "qq", answer := .TRUE, explanation_file := none }
      rfl rfl rfl rfl).1

end Quiz
